import Mathlib

/-!
Verification of the nuhound error-chaining library (src/src/lib.rs).

The development shallowly embeds the library's data model and operations:
`Nuhound` is the error-record type (`struct Nuhound { source: Option<Box<Nuhound>>,
message: String }`), `Foreign` models an arbitrary `std::error::Error` value
(a display text plus an optional further source), and the functions below
mirror `Nuhound::new`, `Nuhound::caused_by`, `Nuhound::link`, `Nuhound::trace`,
the `ResultExtension` and `OptionExtension` adapters, and the four arms of the
`here!` macro.
-/

/-- The error record: `source: Option<Box<Nuhound>>, message: String`. -/
inductive Nuhound : Type where
  | mk : Option Nuhound → String → Nuhound
deriving Repr

/-- The `message` field. -/
def Nuhound.message : Nuhound → String
  | .mk _ m => m

/-- The `source` field. -/
def Nuhound.sourceOf : Nuhound → Option Nuhound
  | .mk s _ => s

/-- `Nuhound::new(inform)`: leaf record, no source (`impl Display` arguments
are embedded as the string they display as). -/
def Nuhound.new (inform : String) : Nuhound :=
  .mk none inform

/-- `impl fmt::Display for Nuhound` writes exactly `self.message`. -/
def Nuhound.display (e : Nuhound) : String :=
  e.message

/-- `Nuhound::caused_by(mut self, source)`: sets `self.source = Some(Box::new(source))`,
overwriting any source `self` previously had, and returns `self`. -/
def Nuhound.caused_by : Nuhound → Nuhound → Nuhound
  | .mk _ m, src => .mk (some src) m

/-- A foreign `std::error::Error` value: a display text and an optional
further cause reported by `Error::source`. -/
inductive Foreign : Type where
  | mk : String → Option Foreign → Foreign
deriving Repr

/-- The foreign error's own display text. -/
def Foreign.display : Foreign → String
  | .mk d _ => d

/-- The foreign error's `source()`. -/
def Foreign.sourceOf : Foreign → Option Foreign
  | .mk _ s => s

/-- Display texts of the whole foreign chain, the value itself first. -/
def Foreign.displays : Foreign → List String
  | .mk d none => [d]
  | .mk d (some s) => d :: Foreign.displays s

/-- Display texts of the strictly-further causes of a foreign error
(the layers reached by following `source()` at least once). -/
def Foreign.causesList (c : Foreign) : List String :=
  match c.sourceOf with
  | none => []
  | some s => s.displays

/-- The collection loop shared by `Nuhound::link`, `ResultExtension::easy` and
the `here!` macro: `let mut causes = vec![Nuhound::new(cause)];
while cause.source().is_some() { .. causes.push(Nuhound::new(cause)); }`. -/
def collectCauses : Foreign → List Nuhound
  | .mk d none => [Nuhound.new d]
  | .mk d (some s) => Nuhound.new d :: collectCauses s

/-- The rebuild loop shared by the same three call sites: pop the innermost
cause as the initial chain, then repeatedly pop and wrap
(`chain = current.unwrap().caused_by(chain)`).  Popping from the end of the
vector is traversing its reversal from the front, hence the `foldl` over the
reversed list.  The `[]` arm is unreachable because `collectCauses` never
returns an empty list (`collectCauses_ne_nil` below); the Rust code relies on
the same fact through `unwrap()`. -/
def rebuildAll (causes : List Nuhound) : Nuhound :=
  match causes.reverse with
  | [] => Nuhound.new ""
  | chain :: rest => rest.foldl (fun chain current => current.caused_by chain) chain

/-- Collect then rebuild: the two loops as they appear, one after the other,
in each of the three Rust call sites. -/
def foldCauses (caused_by : Foreign) : Nuhound :=
  rebuildAll (collectCauses caused_by)

/-- `Nuhound::link(inform, caused_by)`: flatten the foreign chain and attach
`inform` as the new outermost message. -/
def Nuhound.link (inform : String) (caused_by : Foreign) : Nuhound :=
  (Nuhound.new inform).caused_by (foldCauses caused_by)

/-- Rust's `format!("{:2}", n)` on an unsigned integer: the decimal digits
right-aligned with spaces to a minimum width of 2. -/
def fmtWidth2 (n : Nat) : String :=
  let s := toString n
  if s.length < 2 then String.mk (List.replicate (2 - s.length) ' ') ++ s else s

/-- The `while` loop of `Nuhound::trace`: one line
`format!("{:2}: {}", n, this)` per remaining chain node. -/
def tailTrace (n : Nat) : Nuhound → List String
  | .mk none m => [fmtWidth2 n ++ ": " ++ m]
  | .mk (some s) m => (fmtWidth2 n ++ ": " ++ m) :: tailTrace (n + 1) s

/-- `Nuhound::trace`: first line `format!(" 0: {}", self)`, then the loop over
`self.source`, joined with `"\n"` (`trace_list.join("\n")`). -/
def Nuhound.trace : Nuhound → String
  | .mk none m => String.intercalate "\n" [" 0: " ++ m]
  | .mk (some s) m => String.intercalate "\n" ((" 0: " ++ m) :: tailTrace 1 s)

/-- Rust's `Result<T, E>`. -/
inductive Result (T : Type) (E : Type) : Type where
  | Ok : T → Result T E
  | Err : E → Result T E
deriving Repr

/-- `ResultExtension::report`: `Ok(val) => Ok(val), Err(e) => Err(op(e))`. -/
def resultReport {T E : Type} (r : Result T E) (op : E → Nuhound) : Result T Nuhound :=
  match r with
  | .Ok val => .Ok val
  | .Err e => .Err (op e)

/-- `ResultExtension::easy`: `Ok` passes through; `Err(e)` with a source walks
the source chain with the same collect/rebuild loops as `Nuhound::link`
(the Rust body inlines them verbatim) and wraps it under `Nuhound::new(e)`;
`Err(e)` without a source becomes the leaf `Nuhound::new(e)`. -/
def resultEasy {T : Type} (r : Result T Foreign) : Result T Nuhound :=
  match r with
  | .Ok val => .Ok val
  | .Err e =>
    match e.sourceOf with
    | some s => .Err ((Nuhound.new e.display).caused_by (foldCauses s))
    | none => .Err (Nuhound.new e.display)

/-- `OptionExtension::report`: `Some(val) => Ok(val),
None => Err(op(Nuhound::new("Option::None detected")))`. -/
def optionReport {T : Type} (o : Option T) (op : Nuhound → Nuhound) : Result T Nuhound :=
  match o with
  | some val => .Ok val
  | none => .Err (op (Nuhound.new "Option::None detected"))

/-- `OptionExtension::easy`: `Some(val) => Ok(val),
None => Err(Nuhound::new("Option::None detected"))`. -/
def optionEasy {T : Type} (o : Option T) : Result T Nuhound :=
  match o with
  | some val => .Ok val
  | none => .Err (Nuhound.new "Option::None detected")

/-- A call site's `file!()`, `line!()` and `column!()`. -/
structure Location : Type where
  file : String
  line : Nat
  column : Nat

/-- The disclose-mode location text `format!("{}:{}:{}: ", file, line, column)`
that the `here!` macro puts before the caller's message. -/
def locText (loc : Location) : String :=
  loc.file ++ ":" ++ toString loc.line ++ ":" ++ toString loc.column ++ ": "

/-- The `here!(Root, inform...)` arm: format the message, under the disclose
feature put the call-site location text before it, and build a leaf record. -/
def hereRoot (disclose : Bool) (loc : Location) (inform : String) : Nuhound :=
  Nuhound.new (if disclose then locText loc ++ inform else inform)

/-- The `here!(Root)` arm: `here!(Root, "unspecified error")`. -/
def hereRootDefault (disclose : Bool) (loc : Location) : Nuhound :=
  hereRoot disclose loc "unspecified error"

/-- The `here!()` arm: `here!(Root)`. -/
def hereNoArgs (disclose : Bool) (loc : Location) : Nuhound :=
  hereRootDefault disclose loc

/-- The `here!(caused_by, inform...)` arm: the same collect/rebuild loops as
`Nuhound::link` (the macro body inlines them verbatim) under
`here!(Root, inform...).caused_by(chain)`. -/
def hereWith (disclose : Bool) (loc : Location) (inform : String) (caused_by : Foreign) :
    Nuhound :=
  (hereRoot disclose loc inform).caused_by (foldCauses caused_by)

/-- The `here!(caused_by)` arm: with a source, `here!(source, "{}", caused_by)`;
without, `here!(Root, "{}", caused_by)`. -/
def hereForeign (disclose : Bool) (loc : Location) (caused_by : Foreign) : Nuhound :=
  match caused_by.sourceOf with
  | some s => hereWith disclose loc caused_by.display s
  | none => hereRoot disclose loc caused_by.display

/-- Observation: the messages of a record chain, outermost first. -/
def Nuhound.messages : Nuhound → List String
  | .mk none m => [m]
  | .mk (some s) m => m :: Nuhound.messages s

/-- Straightforward recursive chain builder: `chainOf m ms` is the record
with message `m` whose causes carry the messages `ms`, in order, the last
element of `ms` innermost. -/
def chainOf : String → List String → Nuhound
  | m, [] => Nuhound.new m
  | m, m2 :: ms => (Nuhound.new m).caused_by (chainOf m2 ms)

/-- The spec's rendering of a message list: one `"{index:>2}: {message}"`
line per message, numbering from `n`. -/
def numberedLines : Nat → List String → List String
  | _, [] => []
  | n, m :: ms => (fmtWidth2 n ++ ": " ++ m) :: numberedLines (n + 1) ms

/-! ### Basic facts about the embedding -/

/-- Chain induction for `Foreign`. -/
theorem Foreign.chainInduction (P : Foreign → Prop)
    (hleaf : ∀ d, P (Foreign.mk d none))
    (hstep : ∀ d s, P s → P (Foreign.mk d (some s))) : ∀ c, P c
  | .mk d none => hleaf d
  | .mk d (some s) => hstep d s (Foreign.chainInduction P hleaf hstep s)

theorem Nuhound.new_message (m : String) : (Nuhound.new m).message = m := rfl

theorem Nuhound.new_sourceOf (m : String) : (Nuhound.new m).sourceOf = none := rfl

theorem Nuhound.caused_by_message (a b : Nuhound) :
    (a.caused_by b).message = a.message := by
  cases a
  rfl

theorem Nuhound.caused_by_sourceOf (a b : Nuhound) :
    (a.caused_by b).sourceOf = some b := by
  cases a
  rfl

theorem Nuhound.messages_new (m : String) : (Nuhound.new m).messages = [m] := rfl

theorem Nuhound.messages_caused_by (a b : Nuhound) :
    (a.caused_by b).messages = a.message :: b.messages := by
  cases a
  simp [Nuhound.caused_by, Nuhound.messages, Nuhound.message]

theorem Foreign.displays_eq (c : Foreign) :
    c.displays = c.display :: c.causesList := by
  cases c with
  | mk d s =>
    cases s <;> simp [Foreign.displays, Foreign.display, Foreign.causesList, Foreign.sourceOf]

theorem collectCauses_ne_nil (c : Foreign) : collectCauses c ≠ [] := by
  cases c with
  | mk d s => cases s <;> simp [collectCauses]

theorem chainOf_messages : ∀ (ms : List String) (m : String),
    (chainOf m ms).messages = m :: ms
  | [], m => rfl
  | m2 :: ms, m => by
    simp [chainOf, Nuhound.messages_caused_by, Nuhound.new_message,
      chainOf_messages ms m2]

theorem rebuildAll_cons (x : Nuhound) (cs : List Nuhound) (hcs : cs ≠ []) :
    rebuildAll (x :: cs) = x.caused_by (rebuildAll cs) := by
  cases hrev : cs.reverse with
  | nil => exact absurd (List.reverse_eq_nil_iff.mp hrev) hcs
  | cons chain rest =>
    unfold rebuildAll
    rw [List.reverse_cons, hrev, List.cons_append]
    simp [List.foldl_append]

theorem foldCauses_eq : ∀ c : Foreign, foldCauses c = chainOf c.display c.causesList := by
  refine Foreign.chainInduction _ (fun d => rfl) (fun d s ih => ?_)
  have h1 : foldCauses (Foreign.mk d (some s)) =
      (Nuhound.new d).caused_by (rebuildAll (collectCauses s)) := by
    simp only [foldCauses, collectCauses]
    exact rebuildAll_cons _ _ (collectCauses_ne_nil s)
  have h2 : rebuildAll (collectCauses s) = chainOf s.display s.causesList := ih
  have h3 : Foreign.causesList (Foreign.mk d (some s)) = s.displays := rfl
  rw [h1, h2, h3, Foreign.displays_eq s]
  rfl

theorem messages_foldCauses (c : Foreign) :
    (foldCauses c).messages = c.displays := by
  rw [foldCauses_eq, chainOf_messages, Foreign.displays_eq]

theorem link_messages (top : String) (c : Foreign) :
    (Nuhound.link top c).messages = top :: c.displays := by
  simp [Nuhound.link, Nuhound.messages_caused_by, Nuhound.new_message, messages_foldCauses]

theorem tailTrace_eq : ∀ (e : Nuhound) (n : Nat),
    tailTrace n e = numberedLines n e.messages
  | .mk none m, n => by simp [tailTrace, numberedLines, Nuhound.messages]
  | .mk (some s) m, n => by
    simp only [tailTrace, numberedLines, Nuhound.messages, List.cons.injEq, true_and]
    exact tailTrace_eq s (n + 1)

theorem fmtWidth2_zero_colon : (fmtWidth2 0 ++ ": " : String) = " 0: " := by decide

theorem trace_eq (e : Nuhound) :
    e.trace = String.intercalate "\n" (numberedLines 0 e.messages) := by
  cases e with
  | mk s m =>
    cases s with
    | none =>
      simp only [Nuhound.trace, Nuhound.messages, numberedLines, String.append_assoc,
        fmtWidth2_zero_colon]
    | some s' =>
      simp only [Nuhound.trace, Nuhound.messages, numberedLines, String.append_assoc,
        fmtWidth2_zero_colon, tailTrace_eq]

theorem numberedLines_length : ∀ (ms : List String) (n : Nat),
    (numberedLines n ms).length = ms.length
  | [], _ => rfl
  | _ :: ms, n => by simp [numberedLines, numberedLines_length ms (n + 1)]

theorem numberedLines_getD : ∀ (ms : List String) (n i : Nat), i < ms.length →
    (numberedLines n ms).getD i "" = fmtWidth2 (n + i) ++ ": " ++ ms.getD i ""
  | [], _, i, h => by simp at h
  | m :: ms, n, 0, _ => by simp [numberedLines]
  | m :: ms, n, i + 1, h => by
    have ih := numberedLines_getD ms (n + 1) i (by simpa using h)
    simpa [numberedLines, Nat.add_assoc, Nat.add_comm 1 i] using ih

theorem trace_new (m : String) : (Nuhound.new m).trace = " 0: " ++ m := by
  simp [Nuhound.new, Nuhound.trace, String.intercalate, String.intercalate.go]

/-! ### Claims -/

/-- C1 counterexample: the claim predicts that `Nuhound::link(top, foreign)`
for a `foreign` with k further causes yields a chain of k+1 layers.  For a
foreign error with no further cause (k = 0) the code produces 2 layers, not
1: the top message and the foreign error's own message. -/
theorem link_length_counterexample :
    (Foreign.causesList (Foreign.mk "F" none)).length = 0
  ∧ (Nuhound.link "top" (Foreign.mk "F" none)).messages.length ≠ 0 + 1 :=
  ⟨rfl, by decide⟩

/-- C1 (amended): `Nuhound::link(top, foreign)` for a `foreign` with k further
causes produces a chain of k+2 layers: line 0 is `top`, line 1 is the foreign
value's own message, and lines 2..k+1 are the foreign chain's further causes
in original outermost-to-innermost order, the oldest cause innermost. -/
theorem link_flattens_full_chain (top : String) (c : Foreign) :
    (Nuhound.link top c).messages = top :: c.display :: c.causesList
  ∧ (Nuhound.link top c).messages.length = c.causesList.length + 2 := by
  have h := link_messages top c
  rw [Foreign.displays_eq] at h
  refine ⟨h, ?_⟩
  rw [h]
  simp

/-- C2 counterexample: the absence adapter's `easy()` on `None` produces a
record whose message is `"Option::None detected"`, not the claimed
`"missing value detected"`. -/
theorem absence_sentinel_counterexample :
    optionEasy (none : Option Nat) = Result.Err (Nuhound.new "Option::None detected")
  ∧ (Nuhound.new "Option::None detected").message ≠ "missing value detected" :=
  ⟨rfl, by decide⟩

/-- C2 (amended): for every absent-value outcome (`None` of any content type),
`easy()` returns a failure holding a leaf record (no cause) whose message is
the fixed sentinel text `"Option::None detected"`, and `report(transform)`
passes that same freshly synthesized sentinel record to the transform. -/
theorem absence_sentinel_spec (T : Type) (op : Nuhound → Nuhound) :
    optionEasy (none : Option T) = Result.Err (Nuhound.new "Option::None detected")
  ∧ (Nuhound.new "Option::None detected").sourceOf = none
  ∧ optionReport (none : Option T) op = Result.Err (op (Nuhound.new "Option::None detected")) :=
  ⟨rfl, rfl, rfl⟩

/-- C3: a chain of n layers traces to exactly n lines, newest (outermost)
first, line i being the index right-aligned to width 2, then `": "`, then the
i-th layer's message, joined with single newlines and no trailing newline;
in particular `trace(new(m)) = " 0: " ++ m`. -/
theorem trace_numbered_newest_first (m : String) (ms : List String) :
    (chainOf m ms).trace = String.intercalate "\n" (numberedLines 0 (m :: ms))
  ∧ (numberedLines 0 (m :: ms)).length = ms.length + 1
  ∧ (∀ i, i < (m :: ms).length →
      (numberedLines 0 (m :: ms)).getD i "" = fmtWidth2 i ++ ": " ++ (m :: ms).getD i "")
  ∧ (Nuhound.new m).trace = " 0: " ++ m := by
  refine ⟨?_, ?_, ?_, trace_new m⟩
  · rw [trace_eq, chainOf_messages]
  · simpa using numberedLines_length (m :: ms) 0
  · intro i hi
    simpa using numberedLines_getD (m :: ms) 0 i hi

/-- C3 witness: line 1 of the two-layer trace of `"A"` over `"B"`. -/
theorem trace_numbered_newest_first_witness :
    (numberedLines 0 ("A" :: ["B"])).getD 1 "" = fmtWidth2 1 ++ ": " ++ ("A" :: ["B"]).getD 1 "" :=
  (trace_numbered_newest_first "A" ["B"]).2.2.1 1 (by decide)

/-- C4: `ResultExtension::easy` passes a success through unchanged; a failure
whose error has a further cause becomes the flattened full foreign chain with
the error's own display text as top message; a failure without a further
cause becomes a leaf record with the error's display text. -/
theorem result_easy_spec (T : Type) (v : T) (e : Foreign) (d : String) (s : Foreign) :
    resultEasy (Result.Ok v : Result T Foreign) = Result.Ok v
  ∧ resultEasy (Result.Err e : Result T Foreign) = Result.Err (chainOf e.display e.causesList)
  ∧ resultEasy (Result.Err (Foreign.mk d none) : Result T Foreign)
      = Result.Err (Nuhound.new d)
  ∧ resultEasy (Result.Err (Foreign.mk d (some s)) : Result T Foreign)
      = Result.Err (chainOf d (Foreign.displays s)) := by
  have key : ∀ (d' : String) (s' : Foreign),
      resultEasy (Result.Err (Foreign.mk d' (some s')) : Result T Foreign)
        = Result.Err (chainOf d' (Foreign.displays s')) := by
    intro d' s'
    simp only [resultEasy, Foreign.sourceOf, Foreign.display]
    rw [foldCauses_eq, Foreign.displays_eq]
    rfl
  refine ⟨rfl, ?_, rfl, key d s⟩
  cases e with
  | mk d' s' =>
    cases s' with
    | none => rfl
    | some s' =>
      rw [key d' s']
      simp only [Foreign.causesList, Foreign.sourceOf, Foreign.display]

/-- C5: `report(transform)` passes a success through unchanged; only on the
failure/absence path does it invoke the transform — on the original failure
value for the failure adapter, on a freshly synthesized sentinel absence
record for the absence adapter — and it returns the transform's result as the
new failure; on the success path the result does not depend on the transform
at all. -/
theorem report_lazy_spec (T : Type) (v : T) (e : Foreign)
    (op op' : Foreign → Nuhound) (g g' : Nuhound → Nuhound) :
    resultReport (Result.Ok v : Result T Foreign) op = Result.Ok v
  ∧ resultReport (Result.Err e : Result T Foreign) op = Result.Err (op e)
  ∧ resultReport (Result.Ok v : Result T Foreign) op
      = resultReport (Result.Ok v : Result T Foreign) op'
  ∧ optionReport (some v) g = Result.Ok v
  ∧ optionReport (none : Option T) g = Result.Err (g (Nuhound.new "Option::None detected"))
  ∧ optionReport (some v) g = optionReport (some v) g' :=
  ⟨rfl, rfl, rfl, rfl, rfl, rfl⟩

/-- C6 counterexample: the claim says single-value display never contains a
newline, for every record; but display is exactly the record's message, so a
record whose message contains a newline displays one. -/
theorem display_newline_counterexample :
    Char.ofNat 10 ∈ ((Nuhound.new "a\nb").caused_by (Nuhound.new "B")).display.data := by
  decide

/-- C6 (amended): single-value display yields exactly the record's own
message — attaching a cause never changes it, so no cause text is ever
included — and hence contains no newline whenever the message itself contains
none. -/
theorem display_exactly_message (e c : Nuhound) :
    e.display = e.message
  ∧ (e.caused_by c).display = e.message
  ∧ (Char.ofNat 10 ∉ e.message.data → Char.ofNat 10 ∉ e.display.data) := by
  refine ⟨rfl, ?_, fun h => h⟩
  rw [Nuhound.display, Nuhound.caused_by_message]

/-- C6 witness: a record with a newline-free message displays without one. -/
theorem display_exactly_message_witness :
    Char.ofNat 10 ∉ (Nuhound.new "ab").display.data :=
  (display_exactly_message (Nuhound.new "ab") (Nuhound.new "B")).2.2 (by decide)

/-- C7: with disclose enabled, the message the `here!` helper formats is
exactly the plain message with the call site's `file:line:column: ` text put
before it; with disclose disabled it is the plain text alone; and the two
configurations produce records of identical chain shape and layer count —
disclose changes only message text. -/
theorem here_disclose_spec (loc : Location) (inform : String) (c : Foreign) :
    (hereRoot true loc inform).message = locText loc ++ inform
  ∧ (hereRoot false loc inform).message = inform
  ∧ (hereRoot true loc inform).sourceOf = none
  ∧ (hereRoot false loc inform).sourceOf = none
  ∧ (hereWith true loc inform c).messages
      = (locText loc ++ inform) :: c.display :: c.causesList
  ∧ (hereWith false loc inform c).messages = inform :: c.display :: c.causesList
  ∧ (hereWith true loc inform c).messages.length
      = (hereWith false loc inform c).messages.length := by
  have hw : ∀ b : Bool, (hereWith b loc inform c).messages
      = (hereRoot b loc inform).message :: c.display :: c.causesList := by
    intro b
    rw [hereWith, Nuhound.messages_caused_by, messages_foldCauses, Foreign.displays_eq]
  refine ⟨rfl, rfl, rfl, rfl, ?_, ?_, ?_⟩
  · rw [hw]
    rfl
  · rw [hw]
    rfl
  · rw [hw, hw]
    simp

/-- C8: `caused_by` keeps the record's message and replaces any cause it
previously had with exactly the given record; in particular
`new("A").caused_by(new("B")).caused_by(new("C"))` carries message `"A"` with
single cause `"C"`, and `"B"` is no longer reachable. -/
theorem caused_by_replaces_source (a b : Nuhound) :
    (a.caused_by b).message = a.message
  ∧ (a.caused_by b).sourceOf = some b
  ∧ (((Nuhound.new "A").caused_by (Nuhound.new "B")).caused_by (Nuhound.new "C")).messages
      = ["A", "C"]
  ∧ "B" ∉ (((Nuhound.new "A").caused_by (Nuhound.new "B")).caused_by
      (Nuhound.new "C")).messages :=
  ⟨Nuhound.caused_by_message a b, Nuhound.caused_by_sourceOf a b, rfl, by decide⟩

/-- C9: `here!()` and `here!(Root)` coincide and always produce a leaf record
with no cause whose message, with disclose disabled, is exactly
`"unspecified error"`. -/
theorem here_no_args_spec (loc : Location) :
    hereNoArgs false loc = hereRootDefault false loc
  ∧ (hereNoArgs false loc).message = "unspecified error"
  ∧ (hereNoArgs false loc).sourceOf = none
  ∧ (hereNoArgs true loc).sourceOf = none
  ∧ hereNoArgs false loc = Nuhound.new "unspecified error" :=
  ⟨rfl, rfl, rfl, rfl, rfl⟩

/-- C10: trace rendering and chain flattening are total functions of their
input chains — for a chain or foreign chain of any finite length, with no
depth bound, `trace` renders one line per layer and `link` flattens every
foreign layer plus the top message. -/
theorem trace_link_total (e : Nuhound) (top : String) (c : Foreign) :
    e.trace = String.intercalate "\n" (numberedLines 0 e.messages)
  ∧ (numberedLines 0 e.messages).length = e.messages.length
  ∧ (Nuhound.link top c).messages.length = (Foreign.displays c).length + 1 := by
  refine ⟨trace_eq e, numberedLines_length e.messages 0, ?_⟩
  rw [link_messages]
  simp
